import Mathlib

set_option maxRecDepth 100000

/-!
Shallow embedding of the OTA (over-the-air) delta-update subsystem of the
DataJam NB-IoT backend (`src/backend/receiver.py`), together with theorems
settling the specification claims about it.

The relational store (SQLite tables `firmware_versions`, `ota_patches`,
`device_ota_progress`, `devices`) is modelled as lists of rows; each HTTP
handler becomes a pure function from its request parameters and the current
database state to a response and a new database state.  Every SQL `UPDATE`
is modelled as a `List.map` applying the row transformation to the rows the
`WHERE` clause selects, executed as one atomic state transition, which is
how SQLite executes a single statement.  Wall-clock timestamps
(`datetime.now(...)`) are passed in as an explicit `now` argument.  The
base64 transport encoding of chunk bytes is omitted: responses carry the
raw chunk bytes (the encoding is a bijection on byte strings and the `size`
field in the source is computed from the raw bytes before encoding).
-/

namespace NbiotOta

/-- Bytes per OTA chunk, `OTA_CHUNK_SIZE = 512` in the source. -/
def OTA_CHUNK_SIZE : Nat := 512

/-- One iteration of the inner loop of `calculate_crc16`: shift left, with a
conditional XOR of the CCITT polynomial 0x1021 when the top bit is set,
masked to 16 bits. -/
def crc16Round (crc : Nat) : Nat :=
  if crc &&& 0x8000 ≠ 0 then ((crc <<< 1) ^^^ 0x1021) &&& 0xFFFF
  else (crc <<< 1) &&& 0xFFFF

/-- `n` applications of `crc16Round`, the `for _ in range(8)` loop. -/
def crc16Rounds : Nat → Nat → Nat
  | 0, crc => crc
  | n + 1, crc => crc16Rounds n (crc16Round crc)

/-- Processing of one input byte in `calculate_crc16`: XOR the byte into the
high byte of the register, then run the inner loop eight times. -/
def crc16Byte (crc byte : Nat) : Nat :=
  crc16Rounds 8 (crc ^^^ (byte <<< 8))

/-- `calculate_crc16` from `src/backend/receiver.py`: CRC-16/CCITT with the
register initialised to 0xFFFF, folded over the input bytes. -/
def calculate_crc16 (data : List Nat) : Nat :=
  data.foldl crc16Byte 0xFFFF

/-- Row of the `firmware_versions` table. -/
structure FirmwareVersion where
  version : String
  release_date : String
  binary_size : Nat
  sha256 : String
  release_notes : String
  is_current : Bool
  created_at : String
deriving DecidableEq

/-- Row of the `ota_patches` table. -/
structure OtaPatch where
  from_version : String
  to_version : String
  patch_size : Nat
  chunk_count : Nat
  sha256 : String
  compression : String
  created_at : String
deriving DecidableEq

/-- Row of the `device_ota_progress` table. -/
structure OtaProgress where
  device_id : String
  target_version : String
  chunks_received : Nat
  total_chunks : Nat
  started_at : String
  last_chunk_at : Option String
  status : String
  error_message : Option String
deriving DecidableEq

/-- The OTA-relevant columns of a row of the `devices` table. -/
structure DeviceRow where
  device_id : String
  firmware_version : Option String
  last_seen_at : Option String
deriving DecidableEq

/-- The database state seen by the OTA handlers. -/
structure DB where
  firmware_versions : List FirmwareVersion
  ota_patches : List OtaPatch
  device_ota_progress : List OtaProgress
  devices : List DeviceRow
deriving DecidableEq

/-- A freshly initialised database with no rows. -/
def emptyDB : DB := ⟨[], [], [], []⟩

/-- The patch artifact directory `OTA_PATCHES_DIR` as seen by `ota_get_chunk`:
for a (from, to) version pair, the bytes of `patch_from_to_to.bin` when that
file exists, and the `chunk_count` field of `patch_from_to_to.json` when the
metadata file exists. -/
structure OtaFS where
  patchBin : String → String → Option (List Nat)
  patchMeta : String → String → Option Nat

/-- Response of the `/api/ota/check` handler `ota_check`. -/
inductive CheckResp where
  | missingVersion
  | noUpdate (reason : String) (current target : Option String)
  | offer (target_version : String) (patch_size chunk_count chunk_size : Nat)
      (patch_sha256 : String) (resume_from : Nat) (status : String)
deriving DecidableEq

/-- `ota_check` (`/api/ota/check`): consult the firmware registry and patch
catalog, then create or resume a progress record.  `find?` models SQLite
`fetchone` (first matching row); the `INSERT` in the no-session branch is an
append, with column defaults `chunks_received = 0` and `status = 'pending'`. -/
def ota_check (device_id current_version now : String) (db : DB) : CheckResp × DB :=
  if current_version = "" then (.missingVersion, db)
  else
    match db.firmware_versions.find? (fun r => r.is_current) with
    | none => (.noUpdate "no_current_firmware" none none, db)
    | some fw =>
      if current_version = fw.version then
        (.noUpdate "up_to_date" none none, db)
      else
        match db.ota_patches.find?
            (fun p => p.from_version == current_version && p.to_version == fw.version) with
        | none => (.noUpdate "no_patch" (some current_version) (some fw.version), db)
        | some patch =>
          match db.device_ota_progress.find?
              (fun s => s.device_id == device_id && s.target_version == fw.version) with
          | some progress =>
            (.offer fw.version patch.patch_size patch.chunk_count OTA_CHUNK_SIZE
               patch.sha256 progress.chunks_received progress.status, db)
          | none =>
            (.offer fw.version patch.patch_size patch.chunk_count OTA_CHUNK_SIZE
               patch.sha256 0 "pending",
             { db with device_ota_progress := db.device_ota_progress ++
                 [⟨device_id, fw.version, 0, patch.chunk_count, now, none, "pending", none⟩] })

/-- Response of the `/api/ota/chunk` handler `ota_get_chunk`.  `ok` carries
the chunk index, the raw chunk bytes, their length (`size`), the transport
CRC-16 and the total chunk count from the metadata file. -/
inductive ChunkResp where
  | missingParams
  | patchNotFound
  | metaNotFound
  | invalidIndex (total_chunks : Nat)
  | ok (chunk : Int) (data : List Nat) (size : Nat) (crc16 : Nat) (total : Nat)
deriving DecidableEq

/-- HTTP status code attached to each `ChunkResp` in the source. -/
def ChunkResp.httpCode : ChunkResp → Nat
  | .missingParams => 400
  | .patchNotFound => 404
  | .metaNotFound => 404
  | .invalidIndex _ => 400
  | .ok _ _ _ _ _ => 200

/-- The row transformation of the progress `UPDATE` in `ota_get_chunk`:
`SET chunks_received = newMark, last_chunk_at = now, status = 'downloading'
WHERE device_id = d AND target_version = t AND chunks_received < newMark`,
with `newMark = chunk_index + 1`.  Rows the `WHERE` clause does not select
are returned unchanged. -/
def advanceProgress (device_id to_version : String) (newMark : Nat) (now : String)
    (s : OtaProgress) : OtaProgress :=
  if s.device_id = device_id ∧ s.target_version = to_version ∧ s.chunks_received < newMark
  then { s with chunks_received := newMark, last_chunk_at := some now, status := "downloading" }
  else s

/-- `ota_get_chunk` (`/api/ota/chunk`): serve one chunk of a patch binary.
The `f.seek(chunk_index * OTA_CHUNK_SIZE); f.read(OTA_CHUNK_SIZE)` pair is
`(bin.drop (chunk_index.toNat * OTA_CHUNK_SIZE)).take OTA_CHUNK_SIZE`; the
guard `chunk_index < 0 ∨ total_chunks ≤ chunk_index` has already ruled out
negative indices when `toNat` is taken.  The single conditional `UPDATE` of
the watermark is one atomic `List.map advanceProgress` transition. -/
def ota_get_chunk (device_id from_version to_version : String) (chunk_index : Int)
    (now : String) (fs : OtaFS) (db : DB) : ChunkResp × DB :=
  if from_version = "" ∨ to_version = "" then (.missingParams, db)
  else
    match fs.patchBin from_version to_version with
    | none => (.patchNotFound, db)
    | some bin =>
      match fs.patchMeta from_version to_version with
      | none => (.metaNotFound, db)
      | some total_chunks =>
        if chunk_index < 0 ∨ (total_chunks : Int) ≤ chunk_index then
          (.invalidIndex total_chunks, db)
        else
          let chunk_data := (bin.drop (chunk_index.toNat * OTA_CHUNK_SIZE)).take OTA_CHUNK_SIZE
          (.ok chunk_index chunk_data chunk_data.length (calculate_crc16 chunk_data) total_chunks,
           { db with device_ota_progress := (db.device_ota_progress.map
               (advanceProgress device_id to_version (chunk_index.toNat + 1) now)) })

/-- Response of the `/api/ota/complete` handler `ota_complete`. -/
inductive CompleteResp where
  | missingVersion
  | ok (message : String)
  | failed (message : Option String)
deriving DecidableEq

/-- HTTP status code attached to each `CompleteResp` in the source: both the
success and the failure report are acknowledged with 200. -/
def CompleteResp.httpCode : CompleteResp → Nat
  | .missingVersion => 400
  | .ok _ => 200
  | .failed _ => 200

/-- Row transformation of the success-branch progress `UPDATE` in
`ota_complete`: `SET status = 'complete', last_chunk_at = now WHERE
device_id = d AND target_version = t`. -/
def completeRow (device_id target now : String) (s : OtaProgress) : OtaProgress :=
  if s.device_id = device_id ∧ s.target_version = target
  then { s with status := "complete", last_chunk_at := some now }
  else s

/-- Row transformation of the failure-branch progress `UPDATE` in
`ota_complete`: `SET status = 'failed', error_message = err, last_chunk_at =
now WHERE device_id = d AND target_version = t`. -/
def failRow (device_id target : String) (err : Option String) (now : String)
    (s : OtaProgress) : OtaProgress :=
  if s.device_id = device_id ∧ s.target_version = target
  then { s with status := "failed", error_message := err, last_chunk_at := some now }
  else s

/-- Row transformation of the `devices` `UPDATE` in `ota_complete`:
`SET firmware_version = v, last_seen_at = now WHERE device_id = d`. -/
def setDeviceFirmware (device_id version now : String) (d : DeviceRow) : DeviceRow :=
  if d.device_id = device_id
  then { d with firmware_version := some version, last_seen_at := some now }
  else d

/-- `ota_complete` (`/api/ota/complete`): on success mark the progress row
complete and write the new firmware version into the device registry; on
failure mark the progress row failed with the supplied message.  Both paths
answer HTTP 200. -/
def ota_complete (device_id new_version : String) (success : Bool)
    (error_message : Option String) (now : String) (db : DB) : CompleteResp × DB :=
  if new_version = "" then (.missingVersion, db)
  else if success then
    (.ok "OTA update confirmed",
     { db with
         device_ota_progress := db.device_ota_progress.map (completeRow device_id new_version now),
         devices := db.devices.map (setDeviceFirmware device_id new_version now) })
  else
    (.failed error_message,
     { db with device_ota_progress :=
         db.device_ota_progress.map (failRow device_id new_version error_message now) })

/-- Response of the `/api/ota/register-firmware` handler. -/
inductive RegisterFirmwareResp where
  | missingFields
  | ok (version : String) (is_current : Bool)
deriving DecidableEq

/-- The upsert step of `ota_register_firmware` on the (possibly
already-cleared) registry rows: the `INSERT` raises `IntegrityError` exactly
when a row with this version exists (the `UNIQUE` column), in which case
that row is updated in place; otherwise the new row is appended. -/
def registerFirmwareRows (version : String) (binary_size : Nat)
    (sha256 release_notes : String) (is_current : Bool) (now : String)
    (rows : List FirmwareVersion) : List FirmwareVersion :=
  if ∃ r ∈ rows, r.version = version then
    rows.map (fun r =>
      if r.version = version then
        { r with binary_size := binary_size, sha256 := sha256,
                 release_notes := release_notes, is_current := is_current }
      else r)
  else
    rows ++ [⟨version, now, binary_size, sha256, release_notes, is_current, now⟩]

/-- `ota_register_firmware` (`/api/ota/register-firmware`): Python's
`not all([version, binary_size, sha256])` rejects empty strings and a zero
size.  When `is_current` is set, the current flag is first cleared on every
row, then the upsert runs.  The whole call commits once, i.e. is one state
transition. -/
def ota_register_firmware (version : String) (binary_size : Nat)
    (sha256 release_notes : String) (is_current : Bool) (now : String) (db : DB) :
    RegisterFirmwareResp × DB :=
  if version = "" ∨ binary_size = 0 ∨ sha256 = "" then (.missingFields, db)
  else
    (.ok version is_current,
     { db with firmware_versions :=
        (registerFirmwareRows version binary_size sha256 release_notes is_current now
          (if is_current
           then db.firmware_versions.map (fun r => { r with is_current := false })
           else db.firmware_versions)) })

/-- Response of the `/api/ota/register-patch` handler. -/
inductive RegisterPatchResp where
  | missingFields
  | ok (from_version to_version : String) (chunk_count : Nat)
deriving DecidableEq

/-- `ota_register_patch` (`/api/ota/register-patch`): idempotent upsert keyed
by the `UNIQUE(from_version, to_version)` pair; `chunk_count` is stored as
supplied by the caller.  `not all([...])` rejects empty strings and zero
numeric fields (`compression` is defaulted, not validated). -/
def ota_register_patch (from_version to_version : String) (patch_size chunk_count : Nat)
    (sha256 compression : String) (now : String) (db : DB) : RegisterPatchResp × DB :=
  if from_version = "" ∨ to_version = "" ∨ patch_size = 0 ∨ chunk_count = 0 ∨ sha256 = "" then
    (.missingFields, db)
  else
    (.ok from_version to_version chunk_count,
     { db with ota_patches :=
        (if ∃ p ∈ db.ota_patches, p.from_version = from_version ∧ p.to_version = to_version then
          db.ota_patches.map (fun p =>
            if p.from_version = from_version ∧ p.to_version = to_version then
              { p with patch_size := patch_size, chunk_count := chunk_count,
                       sha256 := sha256, compression := compression }
            else p)
        else
          db.ota_patches ++ [⟨from_version, to_version, patch_size, chunk_count, sha256,
            compression, now⟩]) })

/-- The chunk count the spec prescribes for a patch of a given size:
`ceil(patch_size / OTA_CHUNK_SIZE)`. -/
def chunkCountOf (patch_size : Nat) : Nat :=
  (patch_size + OTA_CHUNK_SIZE - 1) / OTA_CHUNK_SIZE

/-- Number of rows of the firmware registry whose current flag is set. -/
def countCurrent (l : List FirmwareVersion) : Nat :=
  (l.filter (fun r => r.is_current)).length

/-- One request to the register-patch endpoint. -/
structure PatchCall where
  from_version : String
  to_version : String
  patch_size : Nat
  chunk_count : Nat
  sha256 : String
  compression : String
  now : String
deriving DecidableEq

/-- Run a sequence of register-patch calls against a database state. -/
def runPatchCalls (calls : List PatchCall) (db : DB) : DB :=
  calls.foldl
    (fun d c => (ota_register_patch c.from_version c.to_version c.patch_size c.chunk_count
        c.sha256 c.compression c.now d).2) db

/-- Patch artifact directory fixture for the version pair 4.6 to 4.7: a
small binary and a metadata chunk count of 3. -/
def fsFix : OtaFS :=
  ⟨fun f t => if f = "4.6" ∧ t = "4.7" then some [7, 8, 9] else none,
   fun f t => if f = "4.6" ∧ t = "4.7" then some 3 else none⟩

/-- Patch artifact directory fixture whose metadata chunk count 1 is the
ceiling of the 3-byte binary's size over the chunk size. -/
def fsCeil : OtaFS :=
  ⟨fun f t => if f = "4.6" ∧ t = "4.7" then some [7, 8, 9] else none,
   fun f t => if f = "4.6" ∧ t = "4.7" then some 1 else none⟩

/-- Database fixture with one finalized (status complete) session whose
watermark is 1 of 3 chunks. -/
def dbC2 : DB := ⟨[], [], [⟨"JBNB0001", "4.7", 1, 3, "T0", none, "complete", none⟩], []⟩

/-- Database fixture with one registered firmware version 4.6 marked
current. -/
def dbC4 : DB := ⟨[⟨"4.6", "T0", 100, "h1", "", true, "T0"⟩], [], [], []⟩

/-- Database fixture with firmware version 4.7 current and nothing else. -/
def dbC7 : DB := ⟨[⟨"4.7", "T0", 100, "h1", "", true, "T0"⟩], [], [], []⟩

/-- Database fixture with one fully downloaded session and its device row. -/
def dbC8 : DB :=
  ⟨[], [], [⟨"JBNB0001", "4.7", 25, 25, "T0", some "T0", "downloading", none⟩],
   [⟨"JBNB0001", some "4.6", some "T0"⟩]⟩

/-- Database fixture with a device row and no session at all. -/
def dbC9 : DB := ⟨[], [], [], [⟨"JBNB0001", some "4.6", some "T0"⟩]⟩

end NbiotOta

namespace NbiotOta

theorem crc16Round_lt (crc : Nat) : crc16Round crc < 65536 := by
  unfold crc16Round
  split
  · exact Nat.lt_succ_of_le (Nat.and_le_right)
  · exact Nat.lt_succ_of_le (Nat.and_le_right)

theorem crc16Rounds_lt (n crc : Nat) (h : crc < 65536) : crc16Rounds n crc < 65536 := by
  induction n generalizing crc with
  | zero => exact h
  | succ n ih => exact ih _ (crc16Round_lt crc)

theorem crc16Byte_lt (crc byte : Nat) : crc16Byte crc byte < 65536 := by
  show crc16Rounds 8 _ < 65536
  show crc16Rounds 7 (crc16Round _) < 65536
  exact crc16Rounds_lt _ _ (crc16Round_lt _)

theorem calculate_crc16_foldl_lt (data : List Nat) (acc : Nat) (h : acc < 65536) :
    data.foldl crc16Byte acc < 65536 := by
  induction data generalizing acc with
  | nil => exact h
  | cons b rest ih => exact ih _ (crc16Byte_lt acc b)

set_option maxRecDepth 40000 in
/-- The watermark after the conditional progress write is exactly the maximum
of the previous watermark and the new mark on rows the request addresses, and
the previous watermark on all other rows. -/
theorem advanceProgress_chunks (d t now : String) (m : Nat) (s : OtaProgress) :
    (advanceProgress d t m now s).chunks_received =
      (if s.device_id = d ∧ s.target_version = t then max s.chunks_received m
       else s.chunks_received) := by
  unfold advanceProgress
  by_cases hab : s.device_id = d ∧ s.target_version = t
  · by_cases hlt : s.chunks_received < m
    · rw [if_pos ⟨hab.1, hab.2, hlt⟩, if_pos hab]
      show m = max s.chunks_received m
      omega
    · rw [if_neg (fun h => hlt h.2.2), if_pos hab]
      show s.chunks_received = max s.chunks_received m
      omega
  · rw [if_neg (fun h => hab ⟨h.1, h.2.1⟩), if_neg hab]

/-- The conditional progress write never lowers any row's watermark. -/
theorem advanceProgress_mono (d t now : String) (m : Nat) (s : OtaProgress) :
    s.chunks_received ≤ (advanceProgress d t m now s).chunks_received := by
  rw [advanceProgress_chunks]
  split
  · exact Nat.le_max_left _ _
  · exact Nat.le_refl _

/-- C1: when a chunk fetch serves index i (HTTP 200), the progress table is
rewritten by the single conditional write `advanceProgress` with mark i+1 in
one atomic transition; on every session row for this (device, target
version) the watermark afterwards equals max(previous chunks_received, i+1),
and no row's watermark ever decreases, so a stale retry with a smaller index
never moves the watermark backward. -/
theorem c1_watermark_monotone (device_id from_version to_version now : String)
    (chunk_index : Int) (fs : OtaFS) (db : DB)
    (hok : (ota_get_chunk device_id from_version to_version chunk_index now fs db).1.httpCode
      = 200) :
    (ota_get_chunk device_id from_version to_version chunk_index now fs db).2.device_ota_progress
      = db.device_ota_progress.map
          (advanceProgress device_id to_version (chunk_index.toNat + 1) now) ∧
    ∀ s ∈ db.device_ota_progress,
      ((s.device_id = device_id ∧ s.target_version = to_version) →
        (advanceProgress device_id to_version (chunk_index.toNat + 1) now s).chunks_received =
          max s.chunks_received (chunk_index.toNat + 1)) ∧
      s.chunks_received ≤
        (advanceProgress device_id to_version (chunk_index.toNat + 1) now s).chunks_received := by
  by_cases hmp : from_version = "" ∨ to_version = ""
  · exact absurd hok (by simp [ota_get_chunk, hmp, ChunkResp.httpCode])
  cases hbin : fs.patchBin from_version to_version with
  | none => exact absurd hok (by simp [ota_get_chunk, hmp, hbin, ChunkResp.httpCode])
  | some bin =>
    cases hmeta : fs.patchMeta from_version to_version with
    | none => exact absurd hok (by simp [ota_get_chunk, hmp, hbin, hmeta, ChunkResp.httpCode])
    | some total_chunks =>
      by_cases hidx : chunk_index < 0 ∨ (total_chunks : Int) ≤ chunk_index
      · exact absurd hok (by simp [ota_get_chunk, hmp, hbin, hmeta, hidx, ChunkResp.httpCode])
      · refine ⟨by simp [ota_get_chunk, hmp, hbin, hmeta, hidx], fun s _ => ?_⟩
        refine ⟨fun hmatch => ?_, advanceProgress_mono _ _ _ _ _⟩
        rw [advanceProgress_chunks, if_pos hmatch]

/-- C1 witness: a pending one-session database, served chunk 0 of a
three-chunk patch. -/
theorem c1_watermark_monotone_witness :
    ((ota_get_chunk "JBNB0001" "4.6" "4.7" 0 "T1"
        ⟨fun f t => if f = "4.6" ∧ t = "4.7" then some [7, 8, 9] else none,
         fun f t => if f = "4.6" ∧ t = "4.7" then some 3 else none⟩
        ⟨[], [], [⟨"JBNB0001", "4.7", 0, 3, "T0", none, "pending", none⟩], []⟩).1.httpCode
      = 200) ∧
    (ota_get_chunk "JBNB0001" "4.6" "4.7" 0 "T1"
        ⟨fun f t => if f = "4.6" ∧ t = "4.7" then some [7, 8, 9] else none,
         fun f t => if f = "4.6" ∧ t = "4.7" then some 3 else none⟩
        ⟨[], [], [⟨"JBNB0001", "4.7", 0, 3, "T0", none, "pending", none⟩], []⟩).2.device_ota_progress
      = [⟨"JBNB0001", "4.7", 0, 3, "T0", none, "pending", none⟩].map
          (advanceProgress "JBNB0001" "4.7" 1 "T1") :=
  ⟨by decide,
   (c1_watermark_monotone "JBNB0001" "4.6" "4.7" "T1" 0
      ⟨fun f t => if f = "4.6" ∧ t = "4.7" then some [7, 8, 9] else none,
       fun f t => if f = "4.6" ∧ t = "4.7" then some 3 else none⟩
      ⟨[], [], [⟨"JBNB0001", "4.7", 0, 3, "T0", none, "pending", none⟩], []⟩
      (by decide)).1⟩

/-- C2 counterexample: a session already finalized as complete with watermark
1 is served chunk 2; the fetch succeeds (HTTP 200) and the conditional write,
which carries no status guard, moves the terminal session's status back to
downloading — refuting the claim that no chunk fetch changes a terminal
status. -/
theorem c2_counterexample :
    dbC2.device_ota_progress = [⟨"JBNB0001", "4.7", 1, 3, "T0", none, "complete", none⟩] ∧
    (ota_get_chunk "JBNB0001" "4.6" "4.7" 2 "T1" fsFix dbC2).1.httpCode = 200 ∧
    (ota_get_chunk "JBNB0001" "4.6" "4.7" 2 "T1" fsFix dbC2).2.device_ota_progress =
      [⟨"JBNB0001", "4.7", 3, 3, "T0", some "T1", "downloading", none⟩] := by
  decide

/-- C2 (amended): the progress update of a chunk fetch carries no status
guard; for a session already finalized as complete or failed, a successful
chunk fetch leaves the row — and thus its terminal status — unchanged exactly
when it serves an index i with i + 1 at most the session's watermark, and
otherwise (when i + 1 exceeds the watermark for the addressed session) the
conditional write sets the terminal session's status back to downloading. -/
theorem c2_terminal_status_amended (device_id from_version to_version now : String)
    (chunk_index : Int) (fs : OtaFS) (db : DB) (s : OtaProgress)
    (_hs : s ∈ db.device_ota_progress)
    (_hterm : s.status = "complete" ∨ s.status = "failed")
    (hok : (ota_get_chunk device_id from_version to_version chunk_index now fs db).1.httpCode
      = 200) :
    (ota_get_chunk device_id from_version to_version chunk_index now fs db).2.device_ota_progress
      = db.device_ota_progress.map
          (advanceProgress device_id to_version (chunk_index.toNat + 1) now) ∧
    (¬(s.device_id = device_id ∧ s.target_version = to_version ∧
        s.chunks_received < chunk_index.toNat + 1) →
      advanceProgress device_id to_version (chunk_index.toNat + 1) now s = s) ∧
    ((s.device_id = device_id ∧ s.target_version = to_version ∧
        s.chunks_received < chunk_index.toNat + 1) →
      (advanceProgress device_id to_version (chunk_index.toNat + 1) now s).status
        = "downloading") := by
  refine ⟨(c1_watermark_monotone device_id from_version to_version now chunk_index fs db
      hok).1, fun hno => ?_, fun hyes => ?_⟩
  · unfold advanceProgress
    rw [if_neg hno]
  · unfold advanceProgress
    rw [if_pos hyes]

/-- C2 witness: the amended theorem applied to the finalized session fixture
at chunk index 2. -/
theorem c2_terminal_status_amended_witness :
    (ota_get_chunk "JBNB0001" "4.6" "4.7" 2 "T1" fsFix dbC2).1.httpCode = 200 ∧
    (ota_get_chunk "JBNB0001" "4.6" "4.7" 2 "T1" fsFix dbC2).2.device_ota_progress =
      dbC2.device_ota_progress.map (advanceProgress "JBNB0001" "4.7" 3 "T1") :=
  ⟨by decide,
   (c2_terminal_status_amended "JBNB0001" "4.6" "4.7" "T1" 2 fsFix dbC2
      ⟨"JBNB0001", "4.7", 1, 3, "T0", none, "complete", none⟩
      (by decide) (Or.inl rfl) (by decide)).1⟩

/-- C3 counterexample: register-patch stores the supplied chunk count without
validating it against the patch size, so a single call with patch_size 100
and chunk_count 7 leaves a catalog record violating
chunk_count = ceil(patch_size / 512) = 1. -/
theorem c3_counterexample :
    (ota_register_patch "4.6" "4.7" 100 7 "h1" "heatshrink" "T0" emptyDB).2.ota_patches =
      [⟨"4.6", "4.7", 100, 7, "h1", "heatshrink", "T0"⟩] ∧
    chunkCountOf 100 = 1 ∧ (7 : Nat) ≠ chunkCountOf 100 := by
  decide

/-- Arithmetic core of the last-chunk bound: when the chunk count is the
ceiling of size over 512, the last chunk's length lies in (0, 512]. -/
theorem chunk_bounds_of_ceil (s : Nat) (hs : 0 < s) :
    0 < s - (chunkCountOf s - 1) * OTA_CHUNK_SIZE ∧
      s - (chunkCountOf s - 1) * OTA_CHUNK_SIZE ≤ OTA_CHUNK_SIZE := by
  unfold chunkCountOf OTA_CHUNK_SIZE
  omega

/-- One register-patch call whose supplied chunk count is the ceiling of its
size preserves the catalog invariant. -/
theorem registerPatch_preserves (c : PatchCall) (db : DB)
    (hdb : ∀ p ∈ db.ota_patches, p.chunk_count = chunkCountOf p.patch_size ∧ 0 < p.patch_size)
    (hc : c.chunk_count = chunkCountOf c.patch_size) :
    ∀ p ∈ (ota_register_patch c.from_version c.to_version c.patch_size c.chunk_count
        c.sha256 c.compression c.now db).2.ota_patches,
      p.chunk_count = chunkCountOf p.patch_size ∧ 0 < p.patch_size := by
  unfold ota_register_patch
  by_cases hval : c.from_version = "" ∨ c.to_version = "" ∨ c.patch_size = 0 ∨
      c.chunk_count = 0 ∨ c.sha256 = ""
  · rw [if_pos hval]
    exact hdb
  · rw [if_neg hval]
    have hsz : 0 < c.patch_size := by
      rcases Nat.eq_zero_or_pos c.patch_size with h0 | h
      · exact absurd (Or.inr (Or.inr (Or.inl h0))) hval
      · exact h
    by_cases hex : ∃ p ∈ db.ota_patches,
        p.from_version = c.from_version ∧ p.to_version = c.to_version
    · rw [if_pos hex]
      intro p hp
      obtain ⟨q, hq, rfl⟩ := List.mem_map.1 hp
      by_cases hm : q.from_version = c.from_version ∧ q.to_version = c.to_version
      · rw [if_pos hm]
        exact ⟨hc, hsz⟩
      · rw [if_neg hm]
        exact hdb q hq
    · rw [if_neg hex]
      intro p hp
      rcases List.mem_append.1 hp with h | h
      · exact hdb p h
      · rcases List.mem_singleton.1 h with rfl
        exact ⟨hc, hsz⟩

/-- The catalog invariant is preserved by any sequence of register-patch
calls each of which supplies the ceiling chunk count. -/
theorem runPatchCalls_preserves (calls : List PatchCall) (db : DB)
    (hdb : ∀ p ∈ db.ota_patches, p.chunk_count = chunkCountOf p.patch_size ∧ 0 < p.patch_size)
    (hcalls : ∀ c ∈ calls, c.chunk_count = chunkCountOf c.patch_size) :
    ∀ p ∈ (runPatchCalls calls db).ota_patches,
      p.chunk_count = chunkCountOf p.patch_size ∧ 0 < p.patch_size := by
  induction calls generalizing db with
  | nil => exact hdb
  | cons c rest ih =>
    exact ih _
      (registerPatch_preserves c db hdb (hcalls c (List.mem_cons_self _ _)))
      (fun c' hc' => hcalls c' (List.mem_cons_of_mem _ hc'))

/-- C3 (amended): register-patch stores chunk_count exactly as supplied and
does not itself enforce the relation; for every patch record present in the
catalog after any sequence of register-patch calls in which each call
supplies chunk_count = ceil(patch_size / 512), the invariant
chunk_count = ceil(patch_size / 512) holds and the last chunk's length
patch_size − (chunk_count − 1)·512 lies in (0, 512]. -/
theorem c3_chunk_count_invariant_amended (calls : List PatchCall)
    (hcalls : ∀ c ∈ calls, c.chunk_count = chunkCountOf c.patch_size) :
    ∀ p ∈ (runPatchCalls calls emptyDB).ota_patches,
      p.chunk_count = chunkCountOf p.patch_size ∧
      0 < p.patch_size - (p.chunk_count - 1) * OTA_CHUNK_SIZE ∧
      p.patch_size - (p.chunk_count - 1) * OTA_CHUNK_SIZE ≤ OTA_CHUNK_SIZE := by
  intro p hp
  obtain ⟨h1, h2⟩ := runPatchCalls_preserves calls emptyDB
    (by intro p hp; exact absurd hp (List.not_mem_nil p)) hcalls p hp
  have hb := chunk_bounds_of_ceil p.patch_size h2
  rw [h1]
  exact ⟨rfl, hb.1, hb.2⟩

/-- C3 witness: the spec's own example — one call registering a 12345-byte
patch with the ceiling chunk count 25; the last chunk has length 57. -/
theorem c3_chunk_count_invariant_amended_witness :
    (25 : Nat) = chunkCountOf 12345 ∧
    0 < 12345 - (25 - 1) * OTA_CHUNK_SIZE ∧
    12345 - (25 - 1) * OTA_CHUNK_SIZE ≤ OTA_CHUNK_SIZE :=
  c3_chunk_count_invariant_amended
    [⟨"4.6", "4.7", 12345, 25, "h1", "heatshrink", "T0"⟩] (by decide)
    ⟨"4.6", "4.7", 12345, 25, "h1", "heatshrink", "T0"⟩ (by decide)

/-- C5: `calculate_crc16` implements CRC-16/CCITT as specified; on the ASCII
bytes of "123456789" it returns 0x29B1, and on every input the result is a
16-bit unsigned value.  The embedding is a pure function, so it has no side
effects. -/
theorem c5_crc16_conformance :
    calculate_crc16 [0x31, 0x32, 0x33, 0x34, 0x35, 0x36, 0x37, 0x38, 0x39] = 0x29B1 ∧
    ∀ data : List Nat, calculate_crc16 data < 65536 := by
  refine ⟨by decide, fun data => ?_⟩
  exact calculate_crc16_foldl_lt data 0xFFFF (by decide)

theorem countCurrent_eq_countP (l : List FirmwareVersion) :
    countCurrent l = l.countP (fun r => r.is_current) :=
  (List.countP_eq_length_filter _ _).symm

/-- All rows are non-current after the clear step of a make-current call. -/
theorem mem_clear_false (rows : List FirmwareVersion) :
    ∀ r ∈ rows.map (fun r => { r with is_current := false }), r.is_current = false := by
  intro r hr
  obtain ⟨q, _, rfl⟩ := List.mem_map.1 hr
  rfl

/-- The clear step does not change the multiset of version strings. -/
theorem clear_versions (rows : List FirmwareVersion) :
    (rows.map (fun r => { r with is_current := false })).map (fun r => r.version) =
      rows.map (fun r => r.version) := by
  rw [List.map_map]
  rfl

/-- Upserting with the current flag set into an all-cleared registry with
unique versions leaves exactly one current row, and it carries the upserted
version. -/
theorem registerFirmwareRows_true (v : String) (bs : Nat) (sh rn now : String)
    (rows : List FirmwareVersion)
    (hall : ∀ r ∈ rows, r.is_current = false)
    (hnd : (rows.map (fun r => r.version)).Nodup) :
    countCurrent (registerFirmwareRows v bs sh rn true now rows) = 1 ∧
    ∀ r ∈ registerFirmwareRows v bs sh rn true now rows,
      r.is_current = true → r.version = v := by
  unfold registerFirmwareRows
  by_cases hex : ∃ r ∈ rows, r.version = v
  · rw [if_pos hex]
    constructor
    · rw [countCurrent_eq_countP, List.countP_map]
      have hcong : rows.countP ((fun r => r.is_current) ∘ (fun r =>
          if r.version = v then
            { r with binary_size := bs, sha256 := sh, release_notes := rn, is_current := true }
          else r)) = rows.countP (fun r => r.version == v) := by
        apply List.countP_congr
        intro r hr
        by_cases hv : r.version = v
        · simp [Function.comp, hv]
        · simp [Function.comp, hv, hall r hr]
      rw [hcong]
      have h1 : rows.countP (fun r => r.version == v) =
          (rows.map (fun r => r.version)).count v := by
        rw [List.count_eq_countP, List.countP_map]
        rfl
      rw [h1]
      have hle := List.nodup_iff_count_le_one.1 hnd v
      have hpos : 0 < (rows.map (fun r => r.version)).count v := by
        rw [List.count_pos_iff]
        obtain ⟨r, hr, hv⟩ := hex
        exact List.mem_map.2 ⟨r, hr, hv⟩
      omega
    · intro r hr htrue
      obtain ⟨q, hq, rfl⟩ := List.mem_map.1 hr
      by_cases hv : q.version = v
      · rw [if_pos hv]
        exact hv
      · rw [if_neg hv] at htrue
        exact absurd htrue (by rw [hall q hq]; exact Bool.false_ne_true)
  · rw [if_neg hex]
    constructor
    · rw [countCurrent_eq_countP, List.countP_append]
      have h0 : rows.countP (fun r => r.is_current) = 0 :=
        List.countP_eq_zero.2 (fun r hr => by simp [hall r hr])
      rw [h0]
      rfl
    · intro r hr htrue
      rcases List.mem_append.1 hr with h | h
      · exact absurd htrue (by rw [hall r h]; exact Bool.false_ne_true)
      · rcases List.mem_singleton.1 h with rfl
        rfl

/-- Upserting with the current flag unset never increases the number of
current rows. -/
theorem registerFirmwareRows_false_le (v : String) (bs : Nat) (sh rn now : String)
    (rows : List FirmwareVersion) :
    countCurrent (registerFirmwareRows v bs sh rn false now rows) ≤ countCurrent rows := by
  unfold registerFirmwareRows
  by_cases hex : ∃ r ∈ rows, r.version = v
  · rw [if_pos hex, countCurrent_eq_countP, countCurrent_eq_countP, List.countP_map]
    apply List.countP_mono_left
    intro r _ h
    by_cases hv : r.version = v
    · rw [Function.comp_apply, if_pos hv] at h
      exact absurd h Bool.false_ne_true
    · rwa [Function.comp_apply, if_neg hv] at h
  · rw [if_neg hex, countCurrent_eq_countP, countCurrent_eq_countP, List.countP_append]
    have h1 : List.countP (fun r => r.is_current)
        [(⟨v, now, bs, sh, rn, false, now⟩ : FirmwareVersion)] = 0 := rfl
    rw [h1]
    omega

/-- C4: the single-current invariant.  Every register-firmware call preserves
"at most one row has the current flag"; and an accepted call that marks
version V current (whether V is new or already registered) leaves — in the
one atomic transition that also clears any previously current row — exactly
one current row, and that row carries version V.  The version column is
unique (the table's UNIQUE constraint), stated as the Nodup hypothesis. -/
theorem c4_single_current (version : String) (binary_size : Nat)
    (sha256 release_notes : String) (is_current : Bool) (now : String) (db : DB)
    (hnd : (db.firmware_versions.map (fun r => r.version)).Nodup) :
    (countCurrent db.firmware_versions ≤ 1 →
      countCurrent (ota_register_firmware version binary_size sha256 release_notes
        is_current now db).2.firmware_versions ≤ 1) ∧
    (version ≠ "" → binary_size ≠ 0 → sha256 ≠ "" → is_current = true →
      countCurrent (ota_register_firmware version binary_size sha256 release_notes
        is_current now db).2.firmware_versions = 1 ∧
      ∀ r ∈ (ota_register_firmware version binary_size sha256 release_notes
        is_current now db).2.firmware_versions,
        r.is_current = true → r.version = version) := by
  unfold ota_register_firmware
  by_cases hval : version = "" ∨ binary_size = 0 ∨ sha256 = ""
  · rw [if_pos hval]
    refine ⟨fun h => h, fun h1 h2 h3 _ => ?_⟩
    rcases hval with h | h | h
    · exact absurd h h1
    · exact absurd h h2
    · exact absurd h h3
  · rw [if_neg hval]
    cases is_current with
    | true =>
      have hall := mem_clear_false db.firmware_versions
      have hnd' : ((db.firmware_versions.map (fun r => { r with is_current := false })).map
          (fun r => r.version)).Nodup := by
        rw [clear_versions]
        exact hnd
      have hmain := registerFirmwareRows_true version binary_size sha256 release_notes now
        _ hall hnd'
      exact ⟨fun _ => le_of_eq hmain.1, fun _ _ _ _ => hmain⟩
    | false =>
      refine ⟨fun hpre => ?_, fun _ _ _ hic => absurd hic Bool.false_ne_true⟩
      exact le_trans
        (registerFirmwareRows_false_le version binary_size sha256 release_notes now
          db.firmware_versions) hpre

/-- C4 witness: registering new version 4.7 as current over a registry whose
only (current) version is 4.6 leaves exactly one current row. -/
theorem c4_single_current_witness :
    countCurrent (ota_register_firmware "4.7" 456789 "h2" "notes" true "T1"
      dbC4).2.firmware_versions = 1 :=
  ((c4_single_current "4.7" 456789 "h2" "notes" true "T1" dbC4 (by decide)).2
    (by decide) (by decide) (by decide) rfl).1

/-- A multiple of the chunk size strictly below the ceiling chunk count stays
strictly below the patch size. -/
theorem mul_chunk_lt_of_lt_ceil (s k : Nat) (hs : 0 < s) (hk : k < chunkCountOf s) :
    k * OTA_CHUNK_SIZE < s := by
  unfold chunkCountOf at hk
  unfold OTA_CHUNK_SIZE at hk ⊢
  omega

/-- C6: with the patch artifact (size S) and its metadata present and the
metadata chunk count equal to ceil(S / 512) (the catalog invariant), a chunk
fetch fails with the Validation error (HTTP 400) exactly when the index lies
outside [0, chunk_count); for every in-range index the fetch returns the
chunk bytes whose length is exactly min(512, S − index·512), which is
positive and at most 512, so the last chunk is shorter and no fixed length
can be assumed. -/
theorem c6_chunk_validation_and_length (device_id from_version to_version now : String)
    (chunk_index : Int) (fs : OtaFS) (db : DB) (bin : List Nat) (cc : Nat)
    (hf : from_version ≠ "") (ht : to_version ≠ "")
    (hbin : fs.patchBin from_version to_version = some bin)
    (hmeta : fs.patchMeta from_version to_version = some cc)
    (hcc : cc = chunkCountOf bin.length) (hS : 0 < bin.length) :
    ((ota_get_chunk device_id from_version to_version chunk_index now fs db).1.httpCode = 400 ↔
      (chunk_index < 0 ∨ (cc : Int) ≤ chunk_index)) ∧
    (0 ≤ chunk_index → chunk_index < (cc : Int) →
      (ota_get_chunk device_id from_version to_version chunk_index now fs db).1 =
        ChunkResp.ok chunk_index
          ((bin.drop (chunk_index.toNat * OTA_CHUNK_SIZE)).take OTA_CHUNK_SIZE)
          ((bin.drop (chunk_index.toNat * OTA_CHUNK_SIZE)).take OTA_CHUNK_SIZE).length
          (calculate_crc16 ((bin.drop (chunk_index.toNat * OTA_CHUNK_SIZE)).take OTA_CHUNK_SIZE))
          cc ∧
      ((bin.drop (chunk_index.toNat * OTA_CHUNK_SIZE)).take OTA_CHUNK_SIZE).length =
        min OTA_CHUNK_SIZE (bin.length - chunk_index.toNat * OTA_CHUNK_SIZE) ∧
      0 < ((bin.drop (chunk_index.toNat * OTA_CHUNK_SIZE)).take OTA_CHUNK_SIZE).length ∧
      ((bin.drop (chunk_index.toNat * OTA_CHUNK_SIZE)).take OTA_CHUNK_SIZE).length ≤
        OTA_CHUNK_SIZE) := by
  have hval : ¬(from_version = "" ∨ to_version = "") := by
    rintro (h | h)
    exacts [hf h, ht h]
  constructor
  · by_cases hidx : chunk_index < 0 ∨ (cc : Int) ≤ chunk_index
    · constructor
      · intro _
        exact hidx
      · intro _
        simp [ota_get_chunk, hval, hbin, hmeta, hidx, ChunkResp.httpCode]
    · constructor
      · intro h400
        have h200 : (ota_get_chunk device_id from_version to_version chunk_index
            now fs db).1.httpCode = 200 := by
          simp [ota_get_chunk, hval, hbin, hmeta, hidx, ChunkResp.httpCode]
        omega
      · intro h
        exact absurd h hidx
  · intro h0 hlt
    have hidx : ¬(chunk_index < 0 ∨ (cc : Int) ≤ chunk_index) := by omega
    have hkcc : chunk_index.toNat < cc := by omega
    have hmul : chunk_index.toNat * OTA_CHUNK_SIZE < bin.length :=
      mul_chunk_lt_of_lt_ceil bin.length chunk_index.toNat hS (hcc ▸ hkcc)
    refine ⟨by simp [ota_get_chunk, hval, hbin, hmeta, hidx], ?_, ?_, ?_⟩
    · rw [List.length_take, List.length_drop]
    · rw [List.length_take, List.length_drop]
      have h512 : 0 < OTA_CHUNK_SIZE := by decide
      omega
    · rw [List.length_take]
      exact Nat.min_le_left _ _

/-- C6 witness: a 3-byte artifact has ceiling chunk count 1; index 2 is
rejected as out of range. -/
theorem c6_chunk_validation_and_length_witness :
    (ota_get_chunk "JBNB0001" "4.6" "4.7" 2 "T1" fsCeil emptyDB).1.httpCode = 400 ↔
      ((2 : Int) < 0 ∨ ((1 : Nat) : Int) ≤ 2) :=
  (c6_chunk_validation_and_length "JBNB0001" "4.6" "4.7" "T1" 2 fsCeil emptyDB [7, 8, 9] 1
    (by decide) (by decide) (by decide) (by decide) (by decide) (by decide)).1

/-- C7: a Check whose declared version equals the current version answers
update_available = false with reason up_to_date; a Check whose (from, to)
pair has no registered patch answers update_available = false with reason
no_patch carrying both version strings.  In both cases the database — in
particular the session store — is returned unchanged, so no session is
created. -/
theorem c7_check_no_update_no_session (device_id current_version now : String) (db : DB)
    (fw : FirmwareVersion)
    (hfw : db.firmware_versions.find? (fun r => r.is_current) = some fw)
    (hv : current_version ≠ "") :
    (current_version = fw.version →
      ota_check device_id current_version now db =
        (CheckResp.noUpdate "up_to_date" none none, db)) ∧
    (current_version ≠ fw.version →
      db.ota_patches.find?
          (fun p => p.from_version == current_version && p.to_version == fw.version) = none →
      ota_check device_id current_version now db =
        (CheckResp.noUpdate "no_patch" (some current_version) (some fw.version), db)) := by
  constructor
  · intro heq
    subst heq
    simp [ota_check, hv, hfw]
  · intro hne hnp
    simp [ota_check, hv, hfw, hne, hnp]

/-- C7 witness: a device already on the current version 4.7 gets up_to_date
and the database is unchanged. -/
theorem c7_check_no_update_no_session_witness :
    ota_check "JBNB0001" "4.7" "T1" dbC7 = (CheckResp.noUpdate "up_to_date" none none, dbC7) :=
  (c7_check_no_update_no_session "JBNB0001" "4.7" "T1" dbC7
    ⟨"4.7", "T0", 100, "h1", "", true, "T0"⟩ (by decide) (by decide)).1 rfl

/-- The success branch of `ota_complete` as one explicit state transition. -/
theorem ota_complete_true_eq (device_id v now : String) (db : DB) (hv : v ≠ "") :
    ota_complete device_id v true none now db =
      (CompleteResp.ok "OTA update confirmed",
       { db with
           device_ota_progress := db.device_ota_progress.map (completeRow device_id v now),
           devices := db.devices.map (setDeviceFirmware device_id v now) }) := by
  unfold ota_complete
  rw [if_neg hv]
  rfl

/-- Marking a progress row complete is idempotent. -/
theorem completeRow_idem (d v now : String) (s : OtaProgress) :
    completeRow d v now (completeRow d v now s) = completeRow d v now s := by
  unfold completeRow
  by_cases h : s.device_id = d ∧ s.target_version = v
  · simp [h.1, h.2]
  · simp [h]

/-- Writing the device's firmware version is idempotent. -/
theorem setDeviceFirmware_idem (d v now : String) (r : DeviceRow) :
    setDeviceFirmware d v now (setDeviceFirmware d v now r) = setDeviceFirmware d v now r := by
  unfold setDeviceFirmware
  by_cases h : r.device_id = d
  · simp [h]
  · simp [h]

/-- Mapping an idempotent function twice is the same as mapping it once. -/
theorem map_idem {α : Type} (f : α → α) (hf : ∀ a, f (f a) = f a) (l : List α) :
    (l.map f).map f = l.map f := by
  rw [List.map_map]
  exact List.map_congr_left (fun a _ => hf a)

/-- Mapping a function that fixes every member leaves the list unchanged. -/
theorem map_fix {α : Type} (f : α → α) (l : List α) (h : ∀ a ∈ l, f a = a) :
    l.map f = l := by
  rw [List.map_congr_left h]
  simp

/-- C8: a Complete report with success = true finalizes every session row for
(device, target) as complete and records the target version on the device
row, answering ok; repeating the same call returns ok again and leaves the
state exactly as after the first call — idempotent, with no error. -/
theorem c8_complete_idempotent (device_id v now : String) (db : DB) (hv : v ≠ "") :
    (ota_complete device_id v true none now db).1 = CompleteResp.ok "OTA update confirmed" ∧
    (ota_complete device_id v true none now
        (ota_complete device_id v true none now db).2).1 =
      CompleteResp.ok "OTA update confirmed" ∧
    (ota_complete device_id v true none now
        (ota_complete device_id v true none now db).2).2 =
      (ota_complete device_id v true none now db).2 ∧
    (∀ s ∈ (ota_complete device_id v true none now db).2.device_ota_progress,
      s.device_id = device_id → s.target_version = v → s.status = "complete") ∧
    (∀ d ∈ (ota_complete device_id v true none now db).2.devices,
      d.device_id = device_id → d.firmware_version = some v) := by
  have hstep := ota_complete_true_eq device_id v now
  refine ⟨?_, ?_, ?_, ?_, ?_⟩
  · rw [hstep db hv]
  · rw [hstep db hv, hstep _ hv]
  · rw [hstep db hv, hstep _ hv]
    simp only [DB.mk.injEq]
    exact ⟨trivial, trivial, map_idem _ (completeRow_idem device_id v now) _,
      map_idem _ (setDeviceFirmware_idem device_id v now) _⟩
  · rw [hstep db hv]
    intro s hs h1 h2
    obtain ⟨q, hq, rfl⟩ := List.mem_map.1 hs
    by_cases h : q.device_id = device_id ∧ q.target_version = v
    · unfold completeRow
      rw [if_pos h]
    · unfold completeRow at h1 h2 ⊢
      rw [if_neg h] at h1 h2 ⊢
      exact absurd ⟨h1, h2⟩ h
  · rw [hstep db hv]
    intro d hd h1
    obtain ⟨q, hq, rfl⟩ := List.mem_map.1 hd
    by_cases h : q.device_id = device_id
    · unfold setDeviceFirmware
      rw [if_pos h]
    · unfold setDeviceFirmware at h1 ⊢
      rw [if_neg h] at h1 ⊢
      exact absurd h1 h

/-- C8 witness: completing a fully downloaded session answers ok. -/
theorem c8_complete_idempotent_witness :
    (ota_complete "JBNB0001" "4.7" true none "T1" dbC8).1 =
      CompleteResp.ok "OTA update confirmed" :=
  (c8_complete_idempotent "JBNB0001" "4.7" "T1" dbC8 (by decide)).1

/-- C9: a Complete report with success = true for a (device, target) pair
with no session row at all still answers ok with HTTP 200, leaves the
session store unchanged (the progress update selects zero rows), and writes
the supplied target version into the device's registry row: the missing
session is neither detected nor reported. -/
theorem c9_complete_no_session (device_id v now : String) (db : DB) (d0 : DeviceRow)
    (hv : v ≠ "")
    (hns : ∀ s ∈ db.device_ota_progress, ¬(s.device_id = device_id ∧ s.target_version = v))
    (hd0 : d0 ∈ db.devices) (hid : d0.device_id = device_id) :
    (ota_complete device_id v true none now db).1 = CompleteResp.ok "OTA update confirmed" ∧
    (ota_complete device_id v true none now db).1.httpCode = 200 ∧
    (ota_complete device_id v true none now db).2.device_ota_progress =
      db.device_ota_progress ∧
    setDeviceFirmware device_id v now d0 ∈ (ota_complete device_id v true none now db).2.devices ∧
    (setDeviceFirmware device_id v now d0).device_id = device_id ∧
    (setDeviceFirmware device_id v now d0).firmware_version = some v := by
  have hstep := ota_complete_true_eq device_id v now db hv
  refine ⟨by rw [hstep], by rw [hstep]; rfl, ?_, ?_, ?_, ?_⟩
  · rw [hstep]
    exact map_fix _ _ (fun s hs => by
      unfold completeRow
      rw [if_neg (hns s hs)])
  · rw [hstep]
    exact List.mem_map_of_mem _ hd0
  · unfold setDeviceFirmware
    rw [if_pos hid]
    exact hid
  · unfold setDeviceFirmware
    rw [if_pos hid]

/-- C9 witness: completing with no session present still answers ok. -/
theorem c9_complete_no_session_witness :
    (ota_complete "JBNB0001" "4.7" true none "T1" dbC9).1 =
      CompleteResp.ok "OTA update confirmed" :=
  (c9_complete_no_session "JBNB0001" "4.7" "T1" dbC9 ⟨"JBNB0001", some "4.6", some "T0"⟩
    (by decide) (by decide) (by decide) rfl).1

/-- C10: a chunk fetch needs no session: with a registered artifact and
metadata present and an in-range index, the fetch succeeds with HTTP 200,
returning the chunk bytes, their size, the transport checksum and the total
chunk count, while the progress update selects zero rows, so the whole
database — in particular the session store — is returned unchanged. -/
theorem c10_chunk_no_session (device_id from_version to_version now : String)
    (chunk_index : Int) (fs : OtaFS) (db : DB) (bin : List Nat) (cc : Nat)
    (hf : from_version ≠ "") (ht : to_version ≠ "")
    (hbin : fs.patchBin from_version to_version = some bin)
    (hmeta : fs.patchMeta from_version to_version = some cc)
    (h0 : 0 ≤ chunk_index) (hlt : chunk_index < (cc : Int))
    (hns : ∀ s ∈ db.device_ota_progress,
      ¬(s.device_id = device_id ∧ s.target_version = to_version)) :
    ota_get_chunk device_id from_version to_version chunk_index now fs db =
      (ChunkResp.ok chunk_index
        ((bin.drop (chunk_index.toNat * OTA_CHUNK_SIZE)).take OTA_CHUNK_SIZE)
        ((bin.drop (chunk_index.toNat * OTA_CHUNK_SIZE)).take OTA_CHUNK_SIZE).length
        (calculate_crc16 ((bin.drop (chunk_index.toNat * OTA_CHUNK_SIZE)).take OTA_CHUNK_SIZE))
        cc,
       db) ∧
    (ota_get_chunk device_id from_version to_version chunk_index now fs db).1.httpCode = 200 := by
  have hval : ¬(from_version = "" ∨ to_version = "") := by
    rintro (h | h)
    exacts [hf h, ht h]
  have hidx : ¬(chunk_index < 0 ∨ (cc : Int) ≤ chunk_index) := by omega
  have hmapfix : db.device_ota_progress.map
      (advanceProgress device_id to_version (chunk_index.toNat + 1) now) =
        db.device_ota_progress :=
    map_fix _ _ (fun s hs => by
      unfold advanceProgress
      rw [if_neg (fun h => hns s hs ⟨h.1, h.2.1⟩)])
  constructor
  · simp [ota_get_chunk, hval, hbin, hmeta, hidx, hmapfix]
  · simp [ota_get_chunk, hval, hbin, hmeta, hidx, ChunkResp.httpCode]

/-- C10 witness: fetching chunk 0 against an empty session store succeeds
with HTTP 200. -/
theorem c10_chunk_no_session_witness :
    (ota_get_chunk "JBNB0001" "4.6" "4.7" 0 "T1" fsCeil emptyDB).1.httpCode = 200 :=
  (c10_chunk_no_session "JBNB0001" "4.6" "4.7" "T1" 0 fsCeil emptyDB [7, 8, 9] 1
    (by decide) (by decide) (by decide) (by decide) (by decide) (by decide) (by decide)).2

end NbiotOta
